import Mathlib

/-!
Shallow embedding of the client-side URL-shortening service (`URLService` in
the source). The registry is an in-memory list of `URLData` records mirrored
to a persisted blob (`localStorage`); operations are modelled as pure
functions threading the state explicitly. Timestamps are integers (milliseconds
since the epoch); the source's `Date` values are represented by those integers.
Nondeterministic inputs of the source (the current time `new Date()`, the
random short-code generator, the mocked location lookup, `navigator.userAgent`,
the fresh record id `Date.now() + Math.random()`) are passed as explicit
parameters.
-/

namespace URLService

/-- A click event appended by `recordClick` (source lines 171-177). -/
structure ClickEvent where
  id : Nat
  timestamp : Int
  source : String
  location : String
  userAgent : String
deriving Repr, DecidableEq

/-- A shortened-URL record, as built by `createShortURL` (source lines 98-108). -/
structure URLData where
  id : Nat
  originalURL : String
  shortCode : String
  shortURL : String
  createdAt : Int
  expiresAt : Int
  validityMinutes : Int
  clicks : List ClickEvent
  totalClicks : Nat
deriving Repr, DecidableEq

/-- Service state: the in-memory `this.urls` array together with the
persisted mirror written by `saveURLs` (the `localStorage` blob). -/
structure State where
  urls : List URLData
  store : List URLData
deriving Repr, DecidableEq

/-- The error kinds the service throws, one per distinct reason string in the
source. `generationExhausted` is not an error of the source: it models, under
bounded fuel, the case where the unbounded retry loop of lines 90-92 would
keep running. -/
inductive URLError where
  | invalidURL
  | invalidValidity
  | invalidShortcodeFormat
  | shortcodeConflict
  | notFound
  | expired
  | generationExhausted
deriving Repr, DecidableEq

/-- `saveURLs` (lines 25-32): mirror the in-memory array to the store. -/
def saveURLs (s : State) : State :=
  { s with store := s.urls }

/-- Modelled from the spec: the standard URL-parsing primitive (`new URL(url)`,
line 45) is platform code absent from the repository. Per the spec, a string
is well formed iff it parses as an absolute URL with a scheme and a host;
malformed strings fail closed. `splitAtSchemeSep` cuts the input at the first
occurrence of the separator `://`. -/
def splitAtSchemeSep : List Char → Option (List Char × List Char)
  | [] => none
  | ':' :: '/' :: '/' :: tail => some ([], tail)
  | c :: rest =>
    match splitAtSchemeSep rest with
    | some (pre, post) => some (c :: pre, post)
    | none => none

/-- Modelled from the spec: parse `s` as an absolute URL, returning its scheme
and host, or `none` when `s` is malformed (no separator, empty scheme,
non-alphabetic scheme, or empty host). -/
def parseURL (s : String) : Option (String × String) :=
  match splitAtSchemeSep s.data with
  | none => none
  | some (schemeCs, restCs) =>
    let hostCs := restCs.takeWhile (fun c => c ≠ '/')
    if !schemeCs.isEmpty && schemeCs.all Char.isAlpha && !hostCs.isEmpty then
      some (String.mk schemeCs, String.mk hostCs)
    else
      none

/-- `isValidURL` (lines 43-50): true iff the URL-parsing primitive accepts. -/
def isValidURL (url : String) : Bool :=
  (parseURL url).isSome

/-- `isShortCodeUnique` (lines 52-54). -/
def isShortCodeUnique (urls : List URLData) (shortCode : String) : Bool :=
  !(urls.any (fun url => url.shortCode == shortCode))

/-- The custom short-code format test of line 77:
`/^[a-zA-Z0-9]+$/.test(c)` together with `c.length <= 20`. -/
def isValidShortCodeFormat (c : String) : Bool :=
  !c.data.isEmpty && c.data.all Char.isAlphanum && c.data.length ≤ 20

/-- JavaScript truthiness of the `customShortCode` argument at line 75:
`null` and the empty string are falsy, every other string is truthy. -/
def jsTruthy : Option String → Bool
  | none => false
  | some c => !(c == "")

/-- The generate-until-unique loop of lines 90-92. The random source is the
candidate stream `gen`; `fuel` bounds the unbounded loop of the source
(exhaustion stands for nontermination). Returns the first candidate that is
not already a short code in the registry. -/
def pickFreshCode (urls : List URLData) (gen : Nat → String) : Nat → Nat → Option String
  | _, 0 => none
  | i, fuel + 1 =>
    if isShortCodeUnique urls (gen i) then some (gen i)
    else pickFreshCode urls gen (i + 1) fuel

/-- The short-code selection of `createShortURL` lines 73-93: validate a
truthy custom code, otherwise auto-generate a fresh one. -/
def chooseShortCode (urls : List URLData) (customShortCode : Option String)
    (gen : Nat → String) (fuel : Nat) : Except URLError String :=
  if jsTruthy customShortCode then
    let c := customShortCode.getD ""
    if !isValidShortCodeFormat c then .error .invalidShortcodeFormat
    else if !(isShortCodeUnique urls c) then .error .shortcodeConflict
    else .ok c
  else
    match pickFreshCode urls gen 0 fuel with
    | some c => .ok c
    | none => .error .generationExhausted

/-- `createShortURL` (lines 56-115). `now` is the clock reading of line 95,
`newId` the fresh id of line 99, `gen`/`fuel` the random code stream. On any
thrown error the state is returned untouched (every `throw` in the source
happens before the mutation of line 110). -/
def createShortURL (s : State) (originalURL : String)
    (customShortCode : Option String) (validityMinutes : Int) (now : Int)
    (newId : Nat) (gen : Nat → String) (fuel : Nat) :
    Except URLError URLData × State :=
  if !isValidURL originalURL then (.error .invalidURL, s)
  else if validityMinutes ≤ 0 then (.error .invalidValidity, s)
  else
    match chooseShortCode s.urls customShortCode gen fuel with
    | .error e => (.error e, s)
    | .ok shortCode =>
      let urlData : URLData :=
        { id := newId
          originalURL := originalURL
          shortCode := shortCode
          shortURL := "http://localhost:3000/" ++ shortCode
          createdAt := now
          expiresAt := now + validityMinutes * 60000
          validityMinutes := validityMinutes
          clicks := []
          totalClicks := 0 }
      let pushed : State := { s with urls := s.urls ++ [urlData] }
      (.ok urlData, saveURLs pushed)

/-- `getURLByShortCode` (lines 117-125): first record with the given code. -/
def getURLByShortCode (urls : List URLData) (shortCode : String) :
    Option URLData :=
  urls.find? (fun u => u.shortCode == shortCode)

/-- `isURLExpired` (lines 127-131): strictly past expiry. -/
def isURLExpired (now : Int) (urlData : URLData) : Bool :=
  now > urlData.expiresAt

/-- The click-append mutation of lines 179-180: push the event and recompute
`totalClicks` from the click list's length. -/
def addClick (u : URLData) (click : ClickEvent) : URLData :=
  let clicks := u.clicks ++ [click]
  { u with clicks := clicks, totalClicks := clicks.length }

/-- In-place mutation of the record found by `getURLByShortCode`: rewrite the
first record carrying the code, leave the rest alone. -/
def updateFirst (shortCode : String) (f : URLData → URLData) :
    List URLData → List URLData
  | [] => []
  | u :: rest =>
    if u.shortCode == shortCode then f u :: rest
    else u :: updateFirst shortCode f rest

/-- `recordClick` (lines 154-185). `now` is the click timestamp, `clickId`
the fresh id, `location` the result of the best-effort location lookup,
`userAgent` the environment string. Returns the updated record on success;
on `NotFound` or `Expired` nothing is appended and nothing persisted. -/
def recordClick (s : State) (shortCode : String) (source : String) (now : Int)
    (clickId : Nat) (location userAgent : String) :
    Except URLError URLData × State :=
  match getURLByShortCode s.urls shortCode with
  | none => (.error .notFound, s)
  | some urlData =>
    if isURLExpired now urlData then (.error .expired, s)
    else
      let click : ClickEvent :=
        { id := clickId
          timestamp := now
          source := source
          location := location
          userAgent := userAgent }
      let updated := addClick urlData click
      let pushed : State :=
        { s with urls := updateFirst shortCode (fun u => addClick u click) s.urls }
      (.ok updated, saveURLs pushed)

/-- The sort comparator of line 189, `(a, b) => new Date(b.createdAt) -
new Date(a.createdAt)`: `a` precedes `b` when `a.createdAt >= b.createdAt`
(descending, most recent first). -/
def byCreatedAtDesc (a b : URLData) : Prop :=
  b.createdAt ≤ a.createdAt

instance : DecidableRel byCreatedAtDesc := fun a b =>
  inferInstanceAs (Decidable (b.createdAt ≤ a.createdAt))

instance : IsTotal URLData byCreatedAtDesc :=
  ⟨fun a b => le_total b.createdAt a.createdAt⟩

instance : IsTrans URLData byCreatedAtDesc :=
  ⟨fun _ _ _ hab hbc => le_trans hbc hab⟩

/-- `getAllURLs` (lines 187-190). `Array.prototype.sort` sorts in place: the
returned list is the sorted array, and the in-memory `this.urls` now holds
that same sorted array. The store is not written (`saveURLs` is not called). -/
def getAllURLs (s : State) : List URLData × State :=
  let sorted := List.insertionSort byCreatedAtDesc s.urls
  (sorted, { s with urls := sorted })

/-- `deleteExpiredURLs` (lines 192-203): drop expired records, persist only
when at least one was dropped, return the count dropped. -/
def deleteExpiredURLs (s : State) (now : Int) : Nat × State :=
  let remaining := s.urls.filter (fun u => !isURLExpired now u)
  let deletedCount := s.urls.length - remaining.length
  let s' : State := { s with urls := remaining }
  if deletedCount > 0 then (deletedCount, saveURLs s')
  else (deletedCount, s')

/-- Whether a service call succeeded (the source call returned instead of
throwing). -/
def isOkResult : Except URLError URLData → Bool
  | .ok _ => true
  | .error _ => false

/-- The click-accounting invariant of the data model: every record's
`totalClicks` equals the length of its click list. -/
def clicksInvariant (s : State) : Prop :=
  ∀ u ∈ s.urls, u.totalClicks = u.clicks.length

/-- Short codes are pairwise distinct across the registry. -/
def codesNodup (s : State) : Prop :=
  (s.urls.map (fun u => u.shortCode)).Nodup

/-- The per-record fields `recordClick` must never touch: the code, the
creation time and the expiry time. -/
def expiryKey (u : URLData) : String × Int × Int :=
  (u.shortCode, u.createdAt, u.expiresAt)

/-- A sequence of `recordClick` calls against one code. Each argument tuple
carries `(source, now, clickId, location, userAgent)`. Returns whether every
call succeeded, together with the final state. -/
def recordClickRun (code : String) :
    List (String × Int × Nat × String × String) → State → Bool × State
  | [], s => (true, s)
  | a :: rest, s =>
    let r := recordClick s code a.1 a.2.1 a.2.2.1 a.2.2.2.1 a.2.2.2.2
    let br := recordClickRun code rest r.2
    (isOkResult r.1 && br.1, br.2)

/-- A sequence of `createShortURL` calls. Each argument tuple carries
`(originalURL, customShortCode, validityMinutes, now, newId, gen, fuel)`.
Returns the final state. -/
def createRun :
    List (String × Option String × Int × Int × Nat × (Nat → String) × Nat) →
    State → State
  | [], s => s
  | a :: rest, s =>
    createRun rest
      (createShortURL s a.1 a.2.1 a.2.2.1 a.2.2.2.1 a.2.2.2.2.1
        a.2.2.2.2.2.1 a.2.2.2.2.2.2).2

/-! Concrete example data used by the closed witness statements. -/

/-- A registry with nothing in it yet (a fresh service whose load found no
stored blob). -/
def emptyState : State := { urls := [], store := [] }

/-- A deterministic stand-in for the random candidate stream. -/
def exGen : Nat → String := fun _ => "abc123"

/-- The record `createShortURL` builds from `emptyState` with URL
`https://a.b`, no custom code, 30 minutes validity, clock 0, id 1, and
candidate stream `exGen`. -/
def exRecord : URLData :=
  { id := 1
    originalURL := "https://a.b"
    shortCode := "abc123"
    shortURL := "http://localhost:3000/abc123"
    createdAt := 0
    expiresAt := 1800000
    validityMinutes := 30
    clicks := []
    totalClicks := 0 }

/-- A record created at time 0. -/
def recEarly : URLData :=
  { exRecord with
    id := 11
    shortCode := "aaa111"
    shortURL := "http://localhost:3000/aaa111" }

/-- A record created at time 1, later than `recEarly`. -/
def recLate : URLData :=
  { exRecord with
    id := 12
    shortCode := "bbb222"
    shortURL := "http://localhost:3000/bbb222"
    createdAt := 1
    expiresAt := 1800001 }

/-- A registry whose stored order (oldest first) disagrees with
createdAt-descending order. -/
def unsortedState : State :=
  { urls := [recEarly, recLate], store := [recEarly, recLate] }

/-- A record whose expiry (time -1) lies strictly before any nonnegative
clock reading. -/
def recExpired : URLData :=
  { exRecord with
    id := 13
    shortCode := "old001"
    shortURL := "http://localhost:3000/old001"
    createdAt := -100
    expiresAt := -1 }

/-- A registry holding only the expired record. -/
def expiredState : State := { urls := [recExpired], store := [recExpired] }

/-- A record occupying the custom code `promo1`. -/
def promoRecord : URLData :=
  { exRecord with
    id := 14
    shortCode := "promo1"
    shortURL := "http://localhost:3000/promo1" }

/-- A registry in which the code `promo1` is already taken. -/
def conflictState : State := { urls := [promoRecord], store := [promoRecord] }

/-- A registry holding exactly the freshly created `exRecord` (no clicks
yet). -/
def freshState : State := { urls := [exRecord], store := [exRecord] }

/-- Two click requests against a live record, both well before its expiry. -/
def exClickArgs : List (String × Int × Nat × String × String) :=
  [("direct", 10, 21, "locA", "uaA"), ("qr", 20, 22, "locB", "uaB")]

/-- A candidate stream whose first candidate differs from its later ones. -/
def exGen2 : Nat → String :=
  fun i => if i = 0 then "abc123" else "xyz789"

/-- Two auto-generated creation requests sharing the candidate stream
`exGen2`. -/
def exCreateArgs :
    List (String × Option String × Int × Int × Nat × (Nat → String) × Nat) :=
  [("https://a.b", none, 30, 2, 31, exGen2, 3),
   ("https://c.d", none, 45, 3, 32, exGen2, 3)]

/-! Helper lemmas shared by the claim theorems. -/

theorem deleteExpiredURLs_urls (s : State) (now : Int) :
    ((deleteExpiredURLs s now).2).urls =
      s.urls.filter (fun u => !isURLExpired now u) := by
  unfold deleteExpiredURLs saveURLs
  dsimp only
  split <;> rfl

theorem deleteExpiredURLs_count (s : State) (now : Int) :
    (deleteExpiredURLs s now).1 =
      s.urls.length - (s.urls.filter (fun u => !isURLExpired now u)).length := by
  unfold deleteExpiredURLs
  dsimp only
  split <;> rfl

theorem pickFreshCode_unique (urls : List URLData) (gen : Nat → String) :
    ∀ (fuel i : Nat) (c : String), pickFreshCode urls gen i fuel = some c →
      isShortCodeUnique urls c = true := by
  intro fuel
  induction fuel with
  | zero =>
    intro i c h
    exact absurd h (by simp [pickFreshCode])
  | succ n ih =>
    intro i c h
    unfold pickFreshCode at h
    split at h
    · injection h with h
      subst h
      assumption
    · exact ih (i + 1) c h

theorem chooseShortCode_unique (urls : List URLData) (custom : Option String)
    (gen : Nat → String) (fuel : Nat) (c : String)
    (h : chooseShortCode urls custom gen fuel = .ok c) :
    isShortCodeUnique urls c = true := by
  unfold chooseShortCode at h
  dsimp only at h
  split at h
  · split at h
    · exact absurd h (by simp)
    · split at h
      · exact absurd h (by simp)
      · rename_i hnotdup
        injection h with h
        subst h
        simpa using hnotdup
  · split at h
    · injection h with h
      subst h
      exact pickFreshCode_unique urls gen fuel 0 _ (by assumption)
    · exact absurd h (by simp)

theorem isShortCodeUnique_iff (urls : List URLData) (c : String) :
    isShortCodeUnique urls c = true ↔
      c ∉ urls.map (fun u => u.shortCode) := by
  unfold isShortCodeUnique
  simp [List.mem_map]

theorem createShortURL_cases (s : State) (url : String)
    (custom : Option String) (v now : Int) (newId : Nat) (gen : Nat → String)
    (fuel : Nat) :
    ((createShortURL s url custom v now newId gen fuel).2 = s ∧
      ∃ e, (createShortURL s url custom v now newId gen fuel).1 = .error e) ∨
    ∃ u, (createShortURL s url custom v now newId gen fuel).1 = .ok u ∧
      (createShortURL s url custom v now newId gen fuel).2 =
        { urls := s.urls ++ [u], store := s.urls ++ [u] } ∧
      u.clicks = [] ∧ u.totalClicks = 0 ∧ u.createdAt = now ∧
      u.expiresAt = now + v * 60000 ∧
      isShortCodeUnique s.urls u.shortCode = true := by
  unfold createShortURL
  dsimp only
  split
  · exact Or.inl ⟨rfl, _, rfl⟩
  · split
    · exact Or.inl ⟨rfl, _, rfl⟩
    · split
      · exact Or.inl ⟨rfl, _, rfl⟩
      · rename_i heq
        exact Or.inr ⟨_, rfl, rfl, rfl, rfl, rfl, rfl,
          chooseShortCode_unique s.urls custom gen fuel _ heq⟩

theorem recordClick_cases (s : State) (code source : String) (now : Int)
    (clickId : Nat) (location userAgent : String) :
    ((recordClick s code source now clickId location userAgent).2 = s ∧
      ∃ e, (recordClick s code source now clickId location userAgent).1 =
        .error e) ∨
    ∃ u click, getURLByShortCode s.urls code = some u ∧
      (recordClick s code source now clickId location userAgent).1 =
        .ok (addClick u click) ∧
      (recordClick s code source now clickId location userAgent).2 =
        { urls := updateFirst code (fun x => addClick x click) s.urls,
          store := updateFirst code (fun x => addClick x click) s.urls } := by
  unfold recordClick
  dsimp only
  split
  · exact Or.inl ⟨rfl, _, rfl⟩
  · rename_i u heq
    split
    · exact Or.inl ⟨rfl, _, rfl⟩
    · exact Or.inr ⟨u, _, heq, rfl, rfl⟩

theorem mem_updateFirst (code : String) (f : URLData → URLData) :
    ∀ (l : List URLData) (x : URLData), x ∈ updateFirst code f l →
      x ∈ l ∨ ∃ y, y ∈ l ∧ x = f y := by
  intro l
  induction l with
  | nil => intro x hx; exact absurd hx (by simp [updateFirst])
  | cons u rest ih =>
    intro x hx
    unfold updateFirst at hx
    split at hx
    · rcases List.mem_cons.mp hx with h | h
      · exact Or.inr ⟨u, List.mem_cons_self u rest, h⟩
      · exact Or.inl (List.mem_cons_of_mem u h)
    · rcases List.mem_cons.mp hx with h | h
      · exact Or.inl (h ▸ List.mem_cons_self u rest)
      · rcases ih x h with h' | ⟨y, hy, hxy⟩
        · exact Or.inl (List.mem_cons_of_mem u h')
        · exact Or.inr ⟨y, List.mem_cons_of_mem u hy, hxy⟩

theorem map_updateFirst (code : String) (f : URLData → URLData)
    (g : URLData → String × Int × Int) (hf : ∀ u, g (f u) = g u) :
    ∀ l : List URLData, (updateFirst code f l).map g = l.map g := by
  intro l
  induction l with
  | nil => rfl
  | cons u rest ih =>
    unfold updateFirst
    split
    · simp [hf]
    · simp [ih]

theorem getURLByShortCode_updateFirst (code : String) (f : URLData → URLData)
    (hf : ∀ u, (f u).shortCode = u.shortCode) :
    ∀ l : List URLData,
      getURLByShortCode (updateFirst code f l) code =
        (getURLByShortCode l code).map f := by
  intro l
  induction l with
  | nil => rfl
  | cons u rest ih =>
    unfold updateFirst
    by_cases h : (u.shortCode == code) = true
    · rw [if_pos h]
      have h2 : ((f u).shortCode == code) = true := by rw [hf]; exact h
      unfold getURLByShortCode
      simp [h, h2]
    · rw [if_neg h]
      unfold getURLByShortCode at ih ⊢
      simp [h, ih]

theorem recordClick_success_step (s : State) (code source : String)
    (now : Int) (clickId : Nat) (location userAgent : String) (u : URLData)
    (hfind : getURLByShortCode s.urls code = some u)
    (hlive : ¬ u.expiresAt < now) :
    (recordClick s code source now clickId location userAgent).1 =
      .ok (addClick u ⟨clickId, now, source, location, userAgent⟩) ∧
    getURLByShortCode
        ((recordClick s code source now clickId location userAgent).2).urls
        code =
      some (addClick u ⟨clickId, now, source, location, userAgent⟩) := by
  have hb : isURLExpired now u = false := by
    simp [isURLExpired]
    omega
  have hred : recordClick s code source now clickId location userAgent =
      (.ok (addClick u ⟨clickId, now, source, location, userAgent⟩),
        { urls := updateFirst code
            (fun x => addClick x ⟨clickId, now, source, location, userAgent⟩)
            s.urls,
          store := updateFirst code
            (fun x => addClick x ⟨clickId, now, source, location, userAgent⟩)
            s.urls }) := by
    unfold recordClick
    rw [hfind]
    simp [hb, saveURLs]
  rw [hred]
  refine ⟨rfl, ?_⟩
  show getURLByShortCode
      (updateFirst code
        (fun x => addClick x ⟨clickId, now, source, location, userAgent⟩)
        s.urls) code = _
  rw [getURLByShortCode_updateFirst code
      (fun x => addClick x ⟨clickId, now, source, location, userAgent⟩)
      (fun _ => rfl) s.urls, hfind]
  rfl

theorem recordClickRun_spec (code : String)
    (args : List (String × Int × Nat × String × String)) :
    ∀ (s : State) (u : URLData),
      getURLByShortCode s.urls code = some u →
      u.totalClicks = u.clicks.length →
      (∀ a ∈ args, ¬ u.expiresAt < a.2.1) →
      (recordClickRun code args s).1 = true ∧
      ∃ u', getURLByShortCode ((recordClickRun code args s).2).urls code =
          some u' ∧
        u'.clicks.length = u.clicks.length + args.length ∧
        u'.totalClicks = u'.clicks.length ∧
        u'.expiresAt = u.expiresAt := by
  induction args with
  | nil =>
    intro s u hfind hinv _
    exact ⟨rfl, u, hfind, by simp, hinv, rfl⟩
  | cons a rest ih =>
    intro s u hfind hinv hok
    have hlive : ¬ u.expiresAt < a.2.1 := hok a (List.mem_cons_self a rest)
    obtain ⟨hstep1, hstep2⟩ :=
      recordClick_success_step s code a.1 a.2.1 a.2.2.1 a.2.2.2.1 a.2.2.2.2 u
        hfind hlive
    have hrest : ∀ b ∈ rest,
        ¬ (addClick u ⟨a.2.2.1, a.2.1, a.1, a.2.2.2.1, a.2.2.2.2⟩).expiresAt
          < b.2.1 := by
      intro b hb
      exact hok b (List.mem_cons_of_mem a hb)
    obtain ⟨hall, u', hfind', hlen, hinv', hexp⟩ :=
      ih (recordClick s code a.1 a.2.1 a.2.2.1 a.2.2.2.1 a.2.2.2.2).2
        (addClick u ⟨a.2.2.1, a.2.1, a.1, a.2.2.2.1, a.2.2.2.2⟩)
        hstep2 (by simp [addClick]) hrest
    refine ⟨?_, u', ?_, ?_, hinv', ?_⟩
    · unfold recordClickRun
      dsimp only
      rw [hstep1, hall]
      rfl
    · unfold recordClickRun
      dsimp only
      exact hfind'
    · rw [hlen]
      simp [addClick]
      omega
    · rw [hexp]
      rfl

theorem createShortURL_ok_or_frame (s : State) (url : String)
    (custom : Option String) (v now : Int) (newId : Nat) (gen : Nat → String)
    (fuel : Nat) :
    (∃ u, (createShortURL s url custom v now newId gen fuel).1 = .ok u) ∨
      (createShortURL s url custom v now newId gen fuel).2 = s := by
  unfold createShortURL
  dsimp only
  split
  · right; rfl
  · split
    · right; rfl
    · split
      · right; rfl
      · left; exact ⟨_, rfl⟩

theorem isValidShortCodeFormat_ne_empty (c : String)
    (h : isValidShortCodeFormat c = true) : (c == "") = false := by
  unfold isValidShortCodeFormat at h
  simp only [Bool.and_eq_true, Bool.not_eq_true'] at h
  obtain ⟨⟨h1, _⟩, _⟩ := h
  have hc : c ≠ "" := by
    intro he
    subst he
    simp at h1
  simp [hc]

theorem createShortURL_codesNodup (s : State) (url : String)
    (custom : Option String) (v now : Int) (newId : Nat) (gen : Nat → String)
    (fuel : Nat) (h : codesNodup s) :
    codesNodup (createShortURL s url custom v now newId gen fuel).2 := by
  rcases createShortURL_cases s url custom v now newId gen fuel with
    ⟨hframe, _⟩ | ⟨u, _, hstate, _, _, _, _, huniq⟩
  · rw [hframe]; exact h
  · rw [hstate]
    unfold codesNodup at h ⊢
    have hmem := (isShortCodeUnique_iff s.urls u.shortCode).mp huniq
    simp [List.nodup_append, h, hmem]

theorem createRun_codesNodup
    (args : List (String × Option String × Int × Int × Nat × (Nat → String) × Nat)) :
    ∀ s : State, codesNodup s → codesNodup (createRun args s) := by
  induction args with
  | nil => intro s h; exact h
  | cons a rest ih =>
    intro s h
    exact ih _ (createShortURL_codesNodup s a.1 a.2.1 a.2.2.1 a.2.2.2.1
      a.2.2.2.2.1 a.2.2.2.2.2.1 a.2.2.2.2.2.2 h)

/-! Claim theorems. -/

/-- C2: `isValidURL s` is true exactly when `s` parses as a well-formed
absolute URL carrying a scheme and a host, malformed strings fail closed to
`false`; in particular `isValidURL "not-a-url"` is false and
`isValidURL "https://a.b"` is true. -/
theorem isValidURL_spec :
    (∀ s : String, isValidURL s = true ↔ ∃ p, parseURL s = some p) ∧
    isValidURL "not-a-url" = false ∧ isValidURL "https://a.b" = true := by
  refine ⟨fun s => ?_, by decide, by decide⟩
  simp [isValidURL, Option.isSome_iff_exists]

/-- C8: sweeping expired records twice at the same clock reading removes
nothing the second time: after one sweep no expired record remains. -/
theorem deleteExpiredURLs_idempotent (s : State) (now : Int) :
    (deleteExpiredURLs (deleteExpiredURLs s now).2 now).1 = 0 := by
  rw [deleteExpiredURLs_count, deleteExpiredURLs_urls, List.filter_filter]
  simp

/-- C1 counterexample: on a registry whose stored order is oldest-first,
`getAllURLs` does not leave the in-memory state unchanged — the in-place
sort reorders `this.urls`. -/
theorem getAllURLs_mutates : (getAllURLs unsortedState).2 ≠ unsortedState := by
  decide

/-- C1 amended: `getAllURLs` returns all records (a permutation of the
registry's records) ordered by `createdAt` descending and writes nothing to
the persisted store; however it sorts the in-memory array in place, so after
the call `this.urls` holds the sorted order rather than the original one. -/
theorem getAllURLs_sorted_perm_no_persist (s : State) :
    List.Sorted byCreatedAtDesc (getAllURLs s).1 ∧
    List.Perm (getAllURLs s).1 s.urls ∧
    ((getAllURLs s).2).store = s.store ∧
    ((getAllURLs s).2).urls = (getAllURLs s).1 :=
  ⟨List.sorted_insertionSort byCreatedAtDesc s.urls,
   List.perm_insertionSort byCreatedAtDesc s.urls, rfl, rfl⟩

/-- C6: a record returned by a successful `createShortURL` call satisfies
`expiresAt - createdAt = validityMinutes * 60000` exactly, with `createdAt`
the clock reading at creation. -/
theorem createShortURL_expiry_exact (s : State) (url : String)
    (custom : Option String) (v now : Int) (newId : Nat) (gen : Nat → String)
    (fuel : Nat) (u : URLData)
    (hok : (createShortURL s url custom v now newId gen fuel).1 = .ok u) :
    u.createdAt = now ∧ u.validityMinutes = v ∧
    u.expiresAt - u.createdAt = v * 60000 := by
  unfold createShortURL at hok
  split at hok
  · exact absurd hok (by simp)
  · split at hok
    · exact absurd hok (by simp)
    · split at hok
      · exact absurd hok (by simp)
      · simp only [] at hok
        injection hok with hu
        subst hu
        refine ⟨rfl, rfl, ?_⟩
        show now + v * 60000 - now = v * 60000
        omega

/-- C6 witness: creating a link for `https://a.b` with 30 minutes validity at
clock 0 yields the record `exRecord`, whose expiry window is exactly
`30 * 60000` milliseconds. -/
theorem createShortURL_expiry_exact_witness :
    exRecord.createdAt = 0 ∧ exRecord.validityMinutes = 30 ∧
    exRecord.expiresAt - exRecord.createdAt = 30 * 60000 :=
  createShortURL_expiry_exact emptyState "https://a.b" none 30 0 1 exGen 1
    exRecord (by rfl)

/-- C3: requesting a custom short code that some record already carries fails
with `ShortcodeConflict` and returns the registry exactly as it was; and in
general every failing `createShortURL` call leaves the state untouched — the
record is either fully appended or not appended at all. -/
theorem createShortURL_conflict_atomic (s : State) (url c : String)
    (v now : Int) (newId : Nat) (gen : Nat → String) (fuel : Nat)
    (hurl : isValidURL url = true) (hv : 0 < v)
    (hfmt : isValidShortCodeFormat c = true)
    (hdup : isShortCodeUnique s.urls c = false) :
    createShortURL s url (some c) v now newId gen fuel =
      (.error .shortcodeConflict, s) ∧
    ∀ (url' : String) (custom : Option String) (v' now' : Int) (newId' : Nat)
      (gen' : Nat → String) (fuel' : Nat) (e : URLError),
      (createShortURL s url' custom v' now' newId' gen' fuel').1 = .error e →
      (createShortURL s url' custom v' now' newId' gen' fuel').2 = s := by
  constructor
  · have hne := isValidShortCodeFormat_ne_empty c hfmt
    have hv' : ¬ v ≤ 0 := by omega
    unfold createShortURL chooseShortCode jsTruthy
    simp [hurl, hv', hne, hfmt, hdup]
  · intro url' custom v' now' newId' gen' fuel' e herr
    rcases createShortURL_ok_or_frame s url' custom v' now' newId' gen' fuel'
      with ⟨u, hok⟩ | hframe
    · rw [hok] at herr
      exact absurd herr (by simp)
    · exact hframe

/-- C3 witness: with `promo1` already taken, creating a second link with the
custom code `promo1` fails with `ShortcodeConflict` and the registry is
unchanged. -/
theorem createShortURL_conflict_atomic_witness :
    createShortURL conflictState "https://a.b" (some "promo1") 30 0 99 exGen 1 =
      (.error .shortcodeConflict, conflictState) :=
  (createShortURL_conflict_atomic conflictState "https://a.b" "promo1" 30 0 99
    exGen 1 (by rfl) (by decide) (by rfl) (by rfl)).1

/-- C4: `recordClick` on a record whose expiry lies strictly in the past
fails with `Expired` and leaves the state exactly as it was — no click event
is appended anywhere and nothing is persisted. -/
theorem recordClick_expired (s : State) (code source : String) (now : Int)
    (clickId : Nat) (location userAgent : String) (u : URLData)
    (hfind : getURLByShortCode s.urls code = some u)
    (hexp : u.expiresAt < now) :
    recordClick s code source now clickId location userAgent =
      (.error .expired, s) := by
  unfold recordClick
  rw [hfind]
  simp [isURLExpired, hexp]

/-- C4 witness: clicking the expired record `old001` at clock 5 fails with
`Expired` and the registry is unchanged. -/
theorem recordClick_expired_witness :
    recordClick expiredState "old001" "direct" 5 1 "here" "agent" =
      (.error .expired, expiredState) :=
  recordClick_expired expiredState "old001" "direct" 5 1 "here" "agent"
    recExpired (by rfl) (by decide)

/-- C5: `totalClicks` always equals the length of the click list — the
invariant is preserved by every operation, a freshly created record starts
with no clicks and count 0, and after `k` successful `recordClick` calls on
the same fresh code the record shows `totalClicks = k = clicks.length`. -/
theorem totalClicks_invariant :
    (∀ (s : State) (url : String) (custom : Option String) (v now : Int)
      (newId : Nat) (gen : Nat → String) (fuel : Nat),
      clicksInvariant s →
      clicksInvariant (createShortURL s url custom v now newId gen fuel).2) ∧
    (∀ (s : State) (code source : String) (now : Int) (clickId : Nat)
      (location userAgent : String),
      clicksInvariant s →
      clicksInvariant
        (recordClick s code source now clickId location userAgent).2) ∧
    (∀ s : State, clicksInvariant s → clicksInvariant (getAllURLs s).2) ∧
    (∀ (s : State) (now : Int),
      clicksInvariant s → clicksInvariant (deleteExpiredURLs s now).2) ∧
    (∀ (s : State) (url : String) (custom : Option String) (v now : Int)
      (newId : Nat) (gen : Nat → String) (fuel : Nat) (u : URLData),
      (createShortURL s url custom v now newId gen fuel).1 = .ok u →
      u.clicks = [] ∧ u.totalClicks = 0) ∧
    (∀ (code : String) (args : List (String × Int × Nat × String × String))
      (s : State) (u : URLData),
      getURLByShortCode s.urls code = some u →
      u.clicks = [] → u.totalClicks = 0 →
      (∀ a ∈ args, ¬ u.expiresAt < a.2.1) →
      (recordClickRun code args s).1 = true ∧
      ∃ u', getURLByShortCode ((recordClickRun code args s).2).urls code =
          some u' ∧
        u'.totalClicks = args.length ∧ u'.clicks.length = args.length) := by
  refine ⟨?_, ?_, ?_, ?_, ?_, ?_⟩
  · intro s url custom v now newId gen fuel hinv
    rcases createShortURL_cases s url custom v now newId gen fuel with
      ⟨hframe, _⟩ | ⟨u, _, hstate, hclicks, htot, _, _, _⟩
    · rw [hframe]; exact hinv
    · rw [hstate]
      unfold clicksInvariant at hinv ⊢
      intro x hx
      rcases List.mem_append.mp hx with hx' | hx'
      · exact hinv x hx'
      · have hxu : x = u := by simpa using hx'
        subst hxu
        rw [htot, hclicks]
        rfl
  · intro s code source now clickId location userAgent hinv
    rcases recordClick_cases s code source now clickId location userAgent with
      ⟨hframe, _⟩ | ⟨u, click, _, _, hstate⟩
    · rw [hframe]; exact hinv
    · rw [hstate]
      unfold clicksInvariant at hinv ⊢
      intro x hx
      rcases mem_updateFirst code _ s.urls x hx with hx' | ⟨y, hy, hxy⟩
      · exact hinv x hx'
      · subst hxy
        simp [addClick]
  · intro s hinv
    unfold clicksInvariant at hinv ⊢
    intro x hx
    have hx' : x ∈ List.insertionSort byCreatedAtDesc s.urls := hx
    exact hinv x
      ((List.perm_insertionSort byCreatedAtDesc s.urls).mem_iff.mp hx')
  · intro s now hinv
    unfold clicksInvariant at hinv ⊢
    intro x hx
    rw [deleteExpiredURLs_urls] at hx
    exact hinv x (List.mem_filter.mp hx).1
  · intro s url custom v now newId gen fuel u hok
    rcases createShortURL_cases s url custom v now newId gen fuel with
      ⟨_, e, herr⟩ | ⟨u', hok', _, hclicks, htot, _, _, _⟩
    · rw [herr] at hok
      exact absurd hok (by simp)
    · rw [hok'] at hok
      injection hok with hu
      subst hu
      exact ⟨hclicks, htot⟩
  · intro code args s u hfind hclicks htot hok
    obtain ⟨hall, u', hfind', hlen, hinv', hexp⟩ :=
      recordClickRun_spec code args s u hfind (by rw [htot, hclicks]; rfl) hok
    refine ⟨hall, u', hfind', ?_, ?_⟩
    · rw [hinv', hlen, hclicks]
      simp
    · rw [hlen, hclicks]
      simp

/-- C5 witness: two clicks against the fresh record `abc123` both succeed
and leave it with `totalClicks = 2 = clicks.length`. -/
theorem totalClicks_invariant_witness :
    (recordClickRun "abc123" exClickArgs freshState).1 = true ∧
    ∃ u', getURLByShortCode
        ((recordClickRun "abc123" exClickArgs freshState).2).urls "abc123" =
        some u' ∧
      u'.totalClicks = exClickArgs.length ∧
      u'.clicks.length = exClickArgs.length :=
  totalClicks_invariant.2.2.2.2.2 "abc123" exClickArgs freshState exRecord
    (by rfl) (by rfl) (by rfl) (by decide)

/-- C7: the auto-generation retry loop only accepts a code not already in
the registry, so creation preserves pairwise distinctness of short codes
across any sequence of `createShortURL` calls, and each success appends
exactly one record. -/
theorem shortCodes_distinct :
    (∀ (urls : List URLData) (gen : Nat → String) (fuel i : Nat) (c : String),
      pickFreshCode urls gen i fuel = some c →
      isShortCodeUnique urls c = true) ∧
    (∀ (s : State) (url : String) (custom : Option String) (v now : Int)
      (newId : Nat) (gen : Nat → String) (fuel : Nat),
      codesNodup s →
      codesNodup (createShortURL s url custom v now newId gen fuel).2) ∧
    (∀ (args : List (String × Option String × Int × Int × Nat ×
        (Nat → String) × Nat)) (s : State),
      codesNodup s → codesNodup (createRun args s)) ∧
    (∀ (s : State) (url : String) (custom : Option String) (v now : Int)
      (newId : Nat) (gen : Nat → String) (fuel : Nat) (u : URLData),
      (createShortURL s url custom v now newId gen fuel).1 = .ok u →
      ((createShortURL s url custom v now newId gen fuel).2).urls.length =
        s.urls.length + 1) := by
  refine ⟨pickFreshCode_unique, createShortURL_codesNodup,
    fun args s => createRun_codesNodup args s, ?_⟩
  intro s url custom v now newId gen fuel u hok
  rcases createShortURL_cases s url custom v now newId gen fuel with
    ⟨_, e, herr⟩ | ⟨u', hok', hstate, _, _, _, _, _⟩
  · rw [herr] at hok
    exact absurd hok (by simp)
  · rw [hstate]
    simp

/-- C7 witness: two auto-generated creations on top of a registry already
holding two codes keep all short codes pairwise distinct. -/
theorem shortCodes_distinct_witness :
    codesNodup (createRun exCreateArgs unsortedState) :=
  shortCodes_distinct.2.2.1 exCreateArgs unsortedState
    (by unfold codesNodup; decide)

/-- C9: an empty-string custom short code is falsy, so `createShortURL`
behaves exactly as if no custom code were supplied: it takes the
auto-generation path, and succeeds (returning the generated code) whenever
the inputs are otherwise valid, rather than failing the one-or-more
alphanumeric format rule. -/
theorem createShortURL_empty_custom (s : State) (url : String) (v now : Int)
    (newId : Nat) (gen : Nat → String) (fuel : Nat) :
    createShortURL s url (some "") v now newId gen fuel =
      createShortURL s url none v now newId gen fuel ∧
    (isValidURL url = true → 0 < v →
      ∀ c, pickFreshCode s.urls gen 0 fuel = some c →
      ∃ u, (createShortURL s url (some "") v now newId gen fuel).1 = .ok u ∧
        u.shortCode = c) := by
  have hch : chooseShortCode s.urls (some "") gen fuel =
      chooseShortCode s.urls none gen fuel := rfl
  constructor
  · unfold createShortURL
    rw [hch]
  · intro hurl hv c hpick
    have hv' : ¬ v ≤ 0 := by omega
    have hchoose : chooseShortCode s.urls (some "") gen fuel = .ok c := by
      unfold chooseShortCode jsTruthy
      simp [hpick]
    unfold createShortURL
    simp [hurl, hv', hchoose]

/-- C9 witness: creating with custom code `""` from the empty registry takes
the auto-generation path and succeeds with the generated code `abc123`. -/
theorem createShortURL_empty_custom_witness :
    ∃ u, (createShortURL emptyState "https://a.b" (some "") 30 0 1 exGen 1).1 =
        .ok u ∧
      u.shortCode = "abc123" :=
  (createShortURL_empty_custom emptyState "https://a.b" 30 0 1 exGen 1).2
    (by rfl) (by decide) "abc123" (by rfl)

/-- C10: expiry is permanent. Expiring is monotone in the clock (once
expired, expired at every later time), `recordClick` never changes any
record's code, creation time or expiry time, listing only permutes records,
sweeping only removes them, and creation only adds the returned record. -/
theorem expiresAt_immutable :
    (∀ (now now' : Int) (u : URLData), now ≤ now' →
      isURLExpired now u = true → isURLExpired now' u = true) ∧
    (∀ (s : State) (code source : String) (now : Int) (clickId : Nat)
      (location userAgent : String),
      ((recordClick s code source now clickId location userAgent).2).urls.map
          expiryKey =
        s.urls.map expiryKey) ∧
    (∀ s : State,
      (((getAllURLs s).2).urls.map expiryKey).Perm
        (s.urls.map expiryKey)) ∧
    (∀ (s : State) (now : Int),
      (((deleteExpiredURLs s now).2).urls.map expiryKey).Sublist
        (s.urls.map expiryKey)) ∧
    (∀ (s : State) (url : String) (custom : Option String) (v now : Int)
      (newId : Nat) (gen : Nat → String) (fuel : Nat) (u' : URLData),
      u' ∈ ((createShortURL s url custom v now newId gen fuel).2).urls →
      u' ∈ s.urls ∨
        (createShortURL s url custom v now newId gen fuel).1 = .ok u') := by
  refine ⟨?_, ?_, ?_, ?_, ?_⟩
  · intro now now' u h hexp
    simp only [isURLExpired, gt_iff_lt, decide_eq_true_eq] at hexp ⊢
    omega
  · intro s code source now clickId location userAgent
    rcases recordClick_cases s code source now clickId location userAgent with
      ⟨hframe, _⟩ | ⟨u, click, _, _, hstate⟩
    · rw [hframe]
    · rw [hstate]
      exact map_updateFirst code (fun x => addClick x click) expiryKey
        (fun _ => rfl) s.urls
  · intro s
    exact (List.perm_insertionSort byCreatedAtDesc s.urls).map expiryKey
  · intro s now
    rw [deleteExpiredURLs_urls]
    exact (List.filter_sublist _).map expiryKey
  · intro s url custom v now newId gen fuel u' hmem
    rcases createShortURL_cases s url custom v now newId gen fuel with
      ⟨hframe, _⟩ | ⟨u, hok, hstate, _, _, _, _, _⟩
    · rw [hframe] at hmem
      exact Or.inl hmem
    · rw [hstate] at hmem
      rcases List.mem_append.mp hmem with h | h
      · exact Or.inl h
      · have hx : u' = u := by simpa using h
        subst hx
        exact Or.inr hok

/-- C10 witness: the record expired at time -1 is expired at clock 0, hence
still expired at the later clock 5. -/
theorem expiresAt_immutable_witness : isURLExpired 5 recExpired = true :=
  expiresAt_immutable.1 0 5 recExpired (by decide) (by decide)

end URLService
